import Mathlib

/-!
Shallow embedding of the `jdk.sh/meta` Go package (files `must.go` and
`meta.go`): build-time metadata validators.  Go panics are modelled as
`Except.error` carrying the `fmt.Errorf` message; absent values (`nil`
pointers / empty strings) are modelled as `Option.none` / `""`.
Functions from the Go standard library that the package calls
(`strconv.ParseBool`, `net/mail.ParseAddress`, `net/url.Parse`,
`time.Parse`) are modelled explicitly below, restricted to the behaviour
the package exercises.
-/

namespace Meta

/-- Byte length of a string, as Go's `len(s)` (UTF-8 bytes). -/
def goLen (s : String) : Nat :=
  (s.data.map Char.utf8Size).sum

/-- Character class used by `mustSHA`: the Go switch accepts exactly
`'0' <= r <= '9'` or `'a' <= r <= 'f'`. -/
def isLowerHex (c : Char) : Bool :=
  ('0' ≤ c && c ≤ '9') || ('a' ≤ c && c ≤ 'f')

/-- Embedding of `mustSHA` (must.go lines 65-87): empty input is absent;
otherwise the byte length must be exactly 40 and every rune must be a
lowercase hex character, else the function panics with a malformed-ldflags
error naming the field path.  The Go loop panics at the first offending
rune; the message is the same for every offender, so an `all` check is
observationally identical. -/
def mustSHA (path raw : String) : Except String String :=
  if raw = "" then .ok ""
  else if goLen raw ≠ 40 then .error ("malformed ldflags value for " ++ path)
  else if raw.data.all isLowerHex then .ok raw
  else .error ("malformed ldflags value for " ++ path)

/-- Embedding of `ShortSHA` (meta.go): `if shaParsed == "" { return "" };
return shaParsed[:7]`.  Go's `s[:7]` is a byte slice that panics when
`len(s) < 7`; the panic is the `none` branch.  Taking the first 7
characters coincides with taking the first 7 bytes whenever the string is
ASCII, which holds for every string `mustSHA` accepts. -/
def ShortSHA (shaParsed : String) : Option String :=
  if shaParsed = "" then some ""
  else if 7 ≤ goLen shaParsed then some ⟨shaParsed.data.take 7⟩
  else none

/-- Model of Go `strconv.ParseBool`: accepts exactly the twelve literals
below and reports an error on anything else. -/
def goParseBool (s : String) : Option Bool :=
  if s = "1" || s = "t" || s = "T" || s = "TRUE" || s = "true" || s = "True" then some true
  else if s = "0" || s = "f" || s = "F" || s = "FALSE" || s = "false" || s = "False" then some false
  else none

/-- Embedding of `mustBool` (must.go lines 33-43): empty input yields
`false`; a value `strconv.ParseBool` accepts is returned; any parse error
degrades to `false`.  The function can never panic. -/
def mustBool (_path raw : String) : Bool :=
  if raw = "" then false
  else match goParseBool raw with
    | some b => b
    | none => false

/-- Character class `[0-9a-zA-Z-]` of the semver regex (ASCII only, as in
Go's regexp). -/
def isAlnumHyphen (c : Char) : Bool :=
  c.isDigit || c.isAlpha || c = '-'

/-- Matches the regex alternative `0|[1-9]\d*`: a nonempty digit string
with no leading zero unless it is exactly `0`. -/
def isNumericId (l : List Char) : Bool :=
  l ≠ [] && l.all Char.isDigit && (l = ['0'] || l.head? ≠ some '0')

/-- Matches one pre-release identifier of the semver regex,
`0|[1-9]\d*|\d*[a-zA-Z-][0-9a-zA-Z-]*`: the third alternative is exactly
the nonempty `[0-9a-zA-Z-]` strings containing at least one non-digit. -/
def isPreId (l : List Char) : Bool :=
  l ≠ [] && l.all isAlnumHyphen && (l.any (fun c => !c.isDigit) || isNumericId l)

/-- Matches one build identifier of the semver regex, `[0-9a-zA-Z-]+`. -/
def isBuildId (l : List Char) : Bool :=
  l ≠ [] && l.all isAlnumHyphen

/-- Splits a list at the first occurrence of `c`, dropping it; `none` when
`c` does not occur. -/
def breakAt (c : Char) : List Char → Option (List Char × List Char)
  | [] => none
  | x :: xs =>
    if x = c then some ([], xs)
    else match breakAt c xs with
      | none => none
      | some (a, b) => some (x :: a, b)

/-- Decomposition performed by the anchored semver regex of must.go line
47 on a whole string: the first `+` (not a legal character of any earlier
group) separates the build metadata, the first `-` of what precedes it
(not a legal character of `major.minor.patch`) separates the pre-release,
and the remainder must be exactly three dot-separated numeric
identifiers.  Returns the five capture groups. -/
def semverMatch (s : String) :
    Option (String × String × String × String × String) :=
  let l := s.data
  let (core, bld) := match breakAt '+' l with
    | none => (l, none)
    | some (a, b) => (a, some b)
  let (mmp, pre) := match breakAt '-' core with
    | none => (core, none)
    | some (a, b) => (a, some b)
  match mmp.splitOn '.' with
  | [ma, mi, pa] =>
    if isNumericId ma && isNumericId mi && isNumericId pa
        && (match pre with
            | none => true
            | some p => (p.splitOn '.').all isPreId)
        && (match bld with
            | none => true
            | some b => (b.splitOn '.').all isBuildId) then
      some (⟨ma⟩, ⟨mi⟩, ⟨pa⟩, ⟨pre.getD []⟩, ⟨bld.getD []⟩)
    else none
  | _ => none

/-- Model of Go `strings.TrimPrefix(raw, "v")`: drops one leading `v`
when present. -/
def trimV (s : String) : String :=
  match s.data with
  | 'v' :: rest => ⟨rest⟩
  | _ => s

/-- Embedding of `mustSemver` (must.go lines 50-62): strip one leading
`v`, run the semver regex, and return the five capture groups, or five
empty strings when the regex does not match.  (In Go, `FindStringSubmatch`
on this regex returns either `nil` or all six submatches with absent
groups as `""`; the `case 5`/`case 4` arms are unreachable and return the
same components.)  The function never panics. -/
def mustSemver (_path raw : String) :
    String × String × String × String × String :=
  match semverMatch (trimV raw) with
  | some r => r
  | none => ("", "", "", "", "")

/-- Whitespace skipped by the address parser (space and tab). -/
def isWS (c : Char) : Bool :=
  c = ' ' || c = '\t'

/-- RFC 5322 `atext` character class, as used by Go `net/mail` atoms:
alphanumerics plus the specials; the apostrophe (39), backtick (96) and
curly braces (123, 125) are written by code point. -/
def isAtext (c : Char) : Bool :=
  c.isAlphanum
    || c ∈ ['!', '#', '$', '%', '&', '*', '+', '-', '/', '=', '?', '^', '_', '|', '~']
    || c.toNat = 39 || c.toNat = 96 || c.toNat = 123 || c.toNat = 125

/-- Dot-atom as consumed by Go `net/mail`: one or more `atext` runs
separated by single dots (no empty run, so no leading, trailing or double
dot). -/
def isDotAtom (l : List Char) : Bool :=
  l ≠ [] && (l.splitOn '.').all (fun p => p ≠ [] && p.all isAtext)

/-- Model of Go `net/mail` `consumeAddrSpec`: a dot-atom local part, an
`@`, and a nonempty dot-atom domain.  Quoted-string local parts and
domain literals are outside the behaviour the package exercises.  Returns
the address `local@domain`. -/
def parseAddrSpec (l : List Char) : Option String :=
  match breakAt '@' l with
  | none => none
  | some (lo, dom) =>
    if isDotAtom lo && isDotAtom dom then some ⟨lo ++ '@' :: dom⟩
    else none

/-- Display-name word: a run of `atext` or dots (Go's `consumePhrase`
accepts atoms with permissive dots; quoted-string words are outside the
behaviour exercised here). -/
def isPhraseWord (l : List Char) : Bool :=
  l ≠ [] && l.all (fun c => isAtext c || c = '.')

/-- Model of Go `net/mail.ParseAddress` restricted to the grammar the
package exercises: either a bare `addr-spec`, or an optional
space-separated display-name phrase followed by `<addr-spec>` with only
whitespace after the closing angle bracket.  The returned name is the
phrase's words joined by single spaces, as Go rebuilds it.  `none` models
a parse error. -/
def mailParseAddress (s : String) : Option (String × String) :=
  let l := s.data.dropWhile isWS
  match breakAt '<' l with
  | none =>
    match parseAddrSpec l with
    | none => none
    | some addr => some ("", addr)
  | some (before, rest) =>
    match breakAt '>' rest with
    | none => none
    | some (inner, after) =>
      if after.all isWS then
        match parseAddrSpec inner with
        | none => none
        | some addr =>
          let words := (before.splitOn ' ').filter (· ≠ [])
          if words.all isPhraseWord then
            some (⟨(words.intersperse [' ']).flatten⟩, addr)
          else none
      else none

/-- Embedding of `mustAuthor` (must.go lines 19-30): empty input yields
an empty name and email; a string `mail.ParseAddress` accepts yields the
parsed display name and address; on any parse error the whole raw input
is returned as the name with an empty email.  The function never
panics. -/
def mustAuthor (_path raw : String) : String × String :=
  if raw = "" then ("", "")
  else match mailParseAddress raw with
    | none => (raw, "")
    | some (n, a) => (n, a)

/-- Result of Go `net/url.Parse`; `opq` is the `Opaque` field.  The
`User` field is dropped (userinfo is validated but not exposed by any
claim). -/
structure GoURL where
  scheme : String
  opq : String
  host : String
  path : String
  rawQuery : String
  fragment : String
deriving DecidableEq, Repr

/-- Control byte test of Go `net/url` `stringContainsCTLByte` (bytes below
space, or DEL); multibyte runes contain no such byte, so a rune-level
check is equivalent. -/
def isCtlChar (c : Char) : Bool :=
  c.toNat < 32 || c.toNat = 127

/-- Hex digit as accepted by Go `net/url` percent-escapes. -/
def isHexC (c : Char) : Bool :=
  c.isDigit || ('a' ≤ c && c ≤ 'f') || ('A' ≤ c && c ≤ 'F')

/-- Validity of percent-escapes, as Go `net/url` `unescape`: every `%`
must be followed by two hex digits.  (The decoded bytes are not needed by
any claim, so components are kept in raw form.) -/
def validPct : List Char → Bool
  | [] => true
  | '%' :: a :: b :: rest => isHexC a && isHexC b && validPct rest
  | '%' :: _ => false
  | _ :: rest => validPct rest

/-- Worker for `getScheme`; `orig` is the whole input, returned untouched
in the no-scheme cases. -/
def getSchemeAux (orig : List Char) : List Char → List Char → Option (List Char × List Char)
  | [], _ => some ([], orig)
  | c :: rest, acc =>
    if c.isAlpha then getSchemeAux orig rest (acc ++ [c])
    else if c.isDigit || c = '+' || c = '-' || c = '.' then
      if acc = [] then some ([], orig)
      else getSchemeAux orig rest (acc ++ [c])
    else if c = ':' then
      if acc = [] then none
      else some (acc, rest)
    else some ([], orig)

/-- Model of Go `net/url` `getScheme`: a scheme is a leading letter
followed by letters, digits, `+`, `-` or `.`, terminated by `:`.  A `:`
with no scheme before it is an error (`none`); any other shape means no
scheme and the whole input is the remainder. -/
def getScheme (l : List Char) : Option (List Char × List Char) :=
  getSchemeAux l l []

/-- Splits a list at the last occurrence of `c`, dropping it. -/
def breakAtLast (c : Char) (l : List Char) : Option (List Char × List Char) :=
  match breakAt c l.reverse with
  | none => none
  | some (a, b) => some (b.reverse, a.reverse)

/-- Userinfo characters accepted by Go `net/url` `validUserinfo`
(unreserved, sub-delims, `:` and `%`); the apostrophe is written by code
point. -/
def isUserinfoChar (c : Char) : Bool :=
  c.isAlphanum
    || c ∈ ['-', '.', '_', '~', '!', '$', '&', '(', ')', '*', '+', ',', ';', '=', ':', '%']
    || c.toNat = 39

/-- Model of Go `net/url` `validOptionalPort`: empty, or `:` followed by
digits only (possibly none). -/
def validOptionalPort : List Char → Bool
  | [] => true
  | ':' :: ds => ds.all Char.isDigit
  | _ => false

/-- Model of Go `net/url` `parseHost`: a bracketed IPv6 literal must have
its closing bracket and a valid optional port after it; otherwise
everything from the last `:` on must be a valid optional port; and
percent-escapes must be well-formed.  Returns the host verbatim (the
claims exercise no escaped hosts, so unescaping is the identity). -/
def parseHost (l : List Char) : Option String :=
  if !validPct l then none
  else if l.head? = some '[' then
    match breakAtLast ']' l with
    | none => none
    | some (_, afterBr) => if validOptionalPort afterBr then some ⟨l⟩ else none
  else
    match breakAtLast ':' l with
    | none => some ⟨l⟩
    | some (_, port) => if validOptionalPort (':' :: port) then some ⟨l⟩ else none

/-- Model of Go `net/url` `parseAuthority`: an optional userinfo before
the last `@` (validated character-wise), then the host. -/
def parseAuthority (l : List Char) : Option String :=
  match breakAtLast '@' l with
  | none => parseHost l
  | some (user, host) =>
    if user.all isUserinfoChar then parseHost host else none

/-- Model of Go `net/url.Parse` restricted to the shapes the package
exercises: reject control bytes; split the fragment at the first `#`;
extract the scheme (lowercased); split the query at the first `?` (with
the trailing-`?` force-query special case); a remainder with a scheme and
no leading slash is opaque; with no scheme, a colon in the first path
segment is an error; a `//` prefix introduces an authority (unless there
is no scheme and it is `///`); everything else is the path.
Percent-escapes are validated in each component. -/
def goURLParse (raw : String) : Option GoURL :=
  let l := raw.data
  if l.any isCtlChar then none
  else
    let (rest0, frag) := match breakAt '#' l with
      | none => (l, [])
      | some (a, b) => (a, b)
    if !validPct frag then none
    else match getScheme rest0 with
      | none => none
      | some (schemeL, rest1) =>
        let scheme : List Char := schemeL.map Char.toLower
        let (rest2, query) :=
          if rest1.getLast? = some '?' && !rest1.dropLast.contains '?' then
            (rest1.dropLast, [])
          else match breakAt '?' rest1 with
            | none => (rest1, [])
            | some (a, b) => (a, b)
        if rest2.head? ≠ some '/' && scheme ≠ [] then
          some ⟨⟨scheme⟩, ⟨rest2⟩, "", "", ⟨query⟩, ⟨frag⟩⟩
        else if rest2.head? ≠ some '/' && scheme = []
            && (rest2.takeWhile (· ≠ '/')).contains ':' then
          none
        else if rest2.take 2 = ['/', '/'] && (scheme ≠ [] || rest2.take 3 ≠ ['/', '/', '/']) then
          let afterSS := rest2.drop 2
          let auth := afterSS.takeWhile (· ≠ '/')
          let rest3 := afterSS.dropWhile (· ≠ '/')
          match parseAuthority auth with
          | none => none
          | some host =>
            if validPct rest3 then some ⟨⟨scheme⟩, "", host, ⟨rest3⟩, ⟨query⟩, ⟨frag⟩⟩
            else none
        else if validPct rest2 then some ⟨⟨scheme⟩, "", "", ⟨rest2⟩, ⟨query⟩, ⟨frag⟩⟩
        else none

/-- Embedding of `mustURL` (must.go lines 117-139): empty input is
absent; a parse error, a scheme other than `http`/`https`, or an empty
host panics with a malformed-ldflags error naming the field path;
otherwise the parsed URL is returned. -/
def mustURL (path raw : String) : Except String (Option GoURL) :=
  if raw = "" then .ok none
  else match goURLParse raw with
    | none => .error ("malformed ldflags value for " ++ path)
    | some parsed =>
      if parsed.scheme ≠ "http" ∧ parsed.scheme ≠ "https" then
        .error ("malformed ldflags value for " ++ path)
      else if parsed.host = "" then
        .error ("malformed ldflags value for " ++ path)
      else .ok (some parsed)

/-- Model of Go `time.Time` as needed here: `sec` is the absolute instant
in seconds since the Unix epoch, `nsec` the nanoseconds, and `offset` the
zone offset (seconds east of UTC) of the time's location, which is all
`t.UTC()` changes. -/
structure GoTime where
  sec : Int
  nsec : Nat
  offset : Int
deriving DecidableEq, Repr

/-- Model of `t.UTC()`: same instant, location set to UTC. -/
def goTimeUTC (t : GoTime) : GoTime :=
  { t with offset := 0 }

/-- Days from 1970-01-01 to the proleptic-Gregorian date `y-m-d`
(era-based civil-days algorithm, shifted by one 400-year era so all
intermediate values stay in `Nat`). -/
def epochDays (y m d : Nat) : Int :=
  let yAdj := if m ≤ 2 then y + 399 else y + 400
  let era := yAdj / 400
  let yoe := yAdj % 400
  let mp := if m ≤ 2 then m + 9 else m - 3
  let doy := (153 * mp + 2) / 5 + d - 1
  let doe := yoe * 365 + yoe / 4 - yoe / 100 + doy
  (era : Int) * 146097 + (doe : Int) - 719468 - 146097

/-- Builds the `GoTime` for wall-clock fields read in a zone `off`
seconds east of UTC. -/
def mkGoTime (y mo d h mi s ns : Nat) (off : Int) : GoTime :=
  ⟨epochDays y mo d * 86400 + (h * 3600 + mi * 60 + s : Nat) - off, ns, off⟩

/-- Leap year in the Gregorian calendar, as Go `time`. -/
def isLeap (y : Nat) : Bool :=
  y % 4 = 0 && (y % 100 ≠ 0 || y % 400 = 0)

/-- Days in a month, as Go `time`. -/
def daysIn (y m : Nat) : Nat :=
  if m = 2 then (if isLeap y then 29 else 28)
  else if m = 4 || m = 6 || m = 9 || m = 11 then 30
  else 31

/-- Field range checks performed by Go `time.Parse` before constructing a
`Time` (month, day-of-month, hour, minute, second). -/
def validDate (y mo d h mi s : Nat) : Bool :=
  1 ≤ mo && mo ≤ 12 && 1 ≤ d && d ≤ daysIn y mo && h ≤ 23 && mi ≤ 59 && s ≤ 59

/-- Numeric value of a digit character. -/
def dv (c : Char) : Nat :=
  c.toNat - 48

/-- Exactly two digits (Go `getnum` with `fixed`). -/
def digits2 : List Char → Option (Nat × List Char)
  | a :: b :: rest =>
    if a.isDigit && b.isDigit then some (dv a * 10 + dv b, rest) else none
  | _ => none

/-- One or two digits (Go `getnum` without `fixed`). -/
def digits12 : List Char → Option (Nat × List Char)
  | a :: b :: rest =>
    if a.isDigit then
      if b.isDigit then some (dv a * 10 + dv b, rest) else some (dv a, b :: rest)
    else none
  | [a] => if a.isDigit then some (dv a, []) else none
  | [] => none

/-- Exactly four digits (the `2006` year chunk). -/
def digits4 : List Char → Option (Nat × List Char)
  | a :: b :: c :: d :: rest =>
    if a.isDigit && b.isDigit && c.isDigit && d.isDigit then
      some (dv a * 1000 + dv b * 100 + dv c * 10 + dv d, rest)
    else none
  | _ => none

/-- Consumes one expected literal character. -/
def expectC (c : Char) : List Char → Option (List Char)
  | x :: r => if x = c then some r else none
  | [] => none

/-- Takes three characters (name abbreviations). -/
def take3 : List Char → Option (List Char × List Char)
  | a :: b :: c :: r => some ([a, b, c], r)
  | _ => none

/-- Short weekday names accepted by the `Mon` layout chunk. -/
def dayAbbrevs : List (List Char) :=
  [['S','u','n'], ['M','o','n'], ['T','u','e'], ['W','e','d'],
   ['T','h','u'], ['F','r','i'], ['S','a','t']]

/-- Short month names of the `Jan` layout chunk, in order. -/
def monthAbbrevs : List (List Char) :=
  [['J','a','n'], ['F','e','b'], ['M','a','r'], ['A','p','r'],
   ['M','a','y'], ['J','u','n'], ['J','u','l'], ['A','u','g'],
   ['S','e','p'], ['O','c','t'], ['N','o','v'], ['D','e','c']]

/-- Month number (1-12) of a short month name. -/
def monthOf (x : List Char) : Option Nat :=
  match monthAbbrevs.indexOf? x with
  | none => none
  | some i => some (i + 1)

/-- Nanoseconds from a list of fraction digits: the first nine digits,
right-padded with zeros. -/
def nsecOfDigits (ds : List Char) : Nat :=
  let nine := (ds.take 9) ++ List.replicate (9 - ds.length) '0'
  nine.foldl (fun n c => n * 10 + dv c) 0

/-- Optional fractional second directly after the seconds field, which Go
`time.Parse` accepts even when the layout lacks it: a period or comma
followed by at least one digit. -/
def parseFrac (l : List Char) : Nat × List Char :=
  match l with
  | c :: rest =>
    if (c = '.' || c = ',') && (rest.head?.map Char.isDigit).getD false then
      (nsecOfDigits (rest.takeWhile Char.isDigit), rest.dropWhile Char.isDigit)
    else (0, l)
  | [] => (0, l)

/-- Fractional second of the strict RFC 3339 parser: period only. -/
def parseFracDot (l : List Char) : Nat × List Char :=
  match l with
  | c :: rest =>
    if c = '.' && (rest.head?.map Char.isDigit).getD false then
      (nsecOfDigits (rest.takeWhile Char.isDigit), rest.dropWhile Char.isDigit)
    else (0, l)
  | [] => (0, l)

/-- Signed numeric zone `±hhmm` (or `±hh:mm` when `colon`), in seconds
east of UTC. -/
def parseSignedTZ (colon : Bool) (l : List Char) : Option (Int × List Char) :=
  let aux : Int → List Char → Option (Int × List Char) := fun sign r =>
    match digits2 r with
    | none => none
    | some (hh, r) =>
      match (if colon then expectC ':' r else some r) with
      | none => none
      | some r =>
        match digits2 r with
        | none => none
        | some (mm, r) => some (sign * ((hh : Int) * 3600 + (mm : Int) * 60), r)
  match l with
  | '+' :: r => aux 1 r
  | '-' :: r => aux (-1) r
  | _ => none

/-- Parses `Mon, ` — a valid weekday abbreviation, comma, space. -/
def parseWdComma (l : List Char) : Option (List Char) :=
  match take3 l with
  | none => none
  | some (wd, r) =>
    if wd ∈ dayAbbrevs then
      match expectC ',' r with
      | none => none
      | some r => expectC ' ' r
    else none

/-- Parses `02 Jan 2006 ` — two-digit day, month abbreviation, four-digit
year, each followed by a space.  Returns day, month, year. -/
def parseDMonY (l : List Char) : Option (Nat × Nat × Nat × List Char) :=
  match digits2 l with
  | none => none
  | some (d, r) =>
    match expectC ' ' r with
    | none => none
    | some r =>
      match take3 r with
      | none => none
      | some (mo3, r) =>
        match monthOf mo3 with
        | none => none
        | some mo =>
          match expectC ' ' r with
          | none => none
          | some r =>
            match digits4 r with
            | none => none
            | some (y, r) =>
              match expectC ' ' r with
              | none => none
              | some r => some (d, mo, y, r)

/-- Parses `15:04:05` — a 1-2-digit hour (the non-padded `15` chunk) and
fixed two-digit minute and second. -/
def parseHMS12 (l : List Char) : Option (Nat × Nat × Nat × List Char) :=
  match digits12 l with
  | none => none
  | some (h, r) =>
    match expectC ':' r with
    | none => none
    | some r =>
      match digits2 r with
      | none => none
      | some (mi, r) =>
        match expectC ':' r with
        | none => none
        | some r =>
          match digits2 r with
          | none => none
          | some (s, r) => some (h, mi, s, r)

/-- Parses `2006-01-02T` — fixed-width date with an uppercase `T`. -/
def parseYMDT (l : List Char) : Option (Nat × Nat × Nat × List Char) :=
  match digits4 l with
  | none => none
  | some (y, r) =>
    match expectC '-' r with
    | none => none
    | some r =>
      match digits2 r with
      | none => none
      | some (mo, r) =>
        match expectC '-' r with
        | none => none
        | some r =>
          match digits2 r with
          | none => none
          | some (d, r) =>
            match expectC 'T' r with
            | none => none
            | some r => some (y, mo, d, r)

/-- Parses `15:04:05` with a fixed two-digit hour (RFC 3339 fast
path). -/
def parseHMS2 (l : List Char) : Option (Nat × Nat × Nat × List Char) :=
  match digits2 l with
  | none => none
  | some (h, r) =>
    match expectC ':' r with
    | none => none
    | some r =>
      match digits2 r with
      | none => none
      | some (mi, r) =>
        match expectC ':' r with
        | none => none
        | some r =>
          match digits2 r with
          | none => none
          | some (s, r) => some (h, mi, s, r)

/-- Zone of the `Z0700` / `Z07:00` chunks: a literal `Z` meaning UTC, or
a signed numeric offset; the whole remainder must be consumed. -/
def parseZoneZ (colon : Bool) (l : List Char) : Option Int :=
  match l with
  | ['Z'] => some 0
  | _ =>
    match parseSignedTZ colon l with
    | some (off, []) => some off
    | _ => none

/-- Zone of the `-0700` chunk: a signed numeric offset only (no `Z`);
the whole remainder must be consumed. -/
def parseZoneNum (l : List Char) : Option Int :=
  match parseSignedTZ false l with
  | some (off, []) => some off
  | _ => none

/-- Model of Go `time.Parse` with layout `time.RFC1123Z`
(`Mon, 02 Jan 2006 15:04:05 -0700`): a valid weekday abbreviation,
comma, space, two-digit day, month abbreviation, four-digit year,
`15`-chunk hour (1-2 digits), two-digit minute and second, an optional
fractional second, and a mandatory signed numeric zone without colon.
Field ranges are validated as Go does. -/
def parseRFC1123Z (l : List Char) : Option GoTime :=
  match parseWdComma l with
  | none => none
  | some r =>
    match parseDMonY r with
    | none => none
    | some (d, mo, y, r) =>
      match parseHMS12 r with
      | none => none
      | some (h, mi, s, r) =>
        let (ns, r) := parseFrac r
        match expectC ' ' r with
        | none => none
        | some r =>
          match parseZoneNum r with
          | none => none
          | some off =>
            if validDate y mo d h mi s then some (mkGoTime y mo d h mi s ns off)
            else none

/-- Model of Go `time.Parse` with layout `time.RFC3339`, which Go
handles with a strict fast path: `2006-01-02T15:04:05` with all fields
fixed-width and the `T` uppercase, an optional `.`-fraction, then either
a literal `Z` or a signed `±hh:mm` offset, with nothing after. -/
def parseRFC3339 (l : List Char) : Option GoTime :=
  match parseYMDT l with
  | none => none
  | some (y, mo, d, r) =>
    match parseHMS2 r with
    | none => none
    | some (h, mi, s, r) =>
      let (ns, r) := parseFracDot r
      match parseZoneZ true r with
      | none => none
      | some off =>
        if validDate y mo d h mi s then some (mkGoTime y mo d h mi s ns off)
        else none

/-- Model of Go `time.Parse` with layout `2006-01-02T15:04:05Z0700`
(the `date --iso-8601=seconds` shape without a colon in the offset): as
RFC 3339 but through the generic layout path, so the fraction may use a
comma, the hour is the non-padded `15` chunk, and the numeric offset has
no colon; `Z` denotes UTC. -/
def parseISO8601NoColon (l : List Char) : Option GoTime :=
  match parseYMDT l with
  | none => none
  | some (y, mo, d, r) =>
    match parseHMS12 r with
    | none => none
    | some (h, mi, s, r) =>
      let (ns, r) := parseFrac r
      match parseZoneZ false r with
      | none => none
      | some off =>
        if validDate y mo d h mi s then some (mkGoTime y mo d h mi s ns off)
        else none

/-- Tries each layout parser in order, first success winning, as the
loop in `mustTime`. -/
def firstParse (fs : List (List Char → Option GoTime)) (l : List Char) : Option GoTime :=
  match fs with
  | [] => none
  | f :: rest =>
    match f l with
    | some t => some t
    | none => firstParse rest l

/-- The ordered layout list of `mustTime` (must.go lines 96-102):
`time.RFC1123Z`, `time.RFC3339`, and the ISO-8601-seconds shape without
a colon in the offset. -/
def timeLayouts : List (List Char → Option GoTime) :=
  [parseRFC1123Z, parseRFC3339, parseISO8601NoColon]

/-- Embedding of `mustTime` (must.go lines 91-114): empty input is
absent; otherwise the layouts are tried in order and the first success is
converted to UTC and returned; if none parses, the function panics with a
malformed-ldflags error naming the field path. -/
def mustTime (path raw : String) : Except String (Option GoTime) :=
  if raw = "" then .ok none
  else match firstParse timeLayouts raw.data with
    | some t => .ok (some (goTimeUTC t))
    | none => .error ("malformed ldflags value for " ++ path)

/-- Model of Go `time.Parse` with layout `time.RFC3339Nano`: when
parsing, the fraction is optional under both layouts and everything else
coincides, so the accepted inputs are those of `time.RFC3339`. -/
def parseRFC3339Nano (l : List Char) : Option GoTime :=
  parseRFC3339 l

/-- Model of Go `time.Parse` with layout `time.UnixDate`
(`Mon Jan _2 15:04:05 MST 2006`): weekday and month abbreviations, a
space-padded 1-2-digit day, the time, a 2-5-letter uppercase zone
abbreviation and a four-digit year.  An abbreviation not defined in the
local zone database makes Go fabricate a location with that name and
offset 0, so the offset is 0 here (as it is for `UTC` and `GMT`). -/
def parseUnixDate (l : List Char) : Option GoTime :=
  match take3 l with
  | none => none
  | some (wd, r) =>
    if wd ∈ dayAbbrevs then
      match expectC ' ' r with
      | none => none
      | some r =>
        match take3 r with
        | none => none
        | some (mo3, r) =>
          match monthOf mo3 with
          | none => none
          | some mo =>
            match expectC ' ' r with
            | none => none
            | some r =>
              let r := if r.head? = some ' ' then r.drop 1 else r
              match digits12 r with
              | none => none
              | some (d, r) =>
                match expectC ' ' r with
                | none => none
                | some r =>
                  match parseHMS12 r with
                  | none => none
                  | some (h, mi, s, r) =>
                    let (ns, r) := parseFrac r
                    match expectC ' ' r with
                    | none => none
                    | some r =>
                      let zone := r.takeWhile Char.isUpper
                      let r := r.dropWhile Char.isUpper
                      if 2 ≤ zone.length && zone.length ≤ 5 then
                        match expectC ' ' r with
                        | none => none
                        | some r =>
                          match digits4 r with
                          | some (y, []) =>
                            if validDate y mo d h mi s then
                              some (mkGoTime y mo d h mi s ns 0)
                            else none
                          | _ => none
                      else none
    else none

/-- Modelled from the spec: the spec's section 4.1 prescribes an ordered
list of five layouts — RFC-1123-with-numeric-zone, RFC-3339,
RFC-3339-with-nanoseconds, a Unix-style textual date, and the
ISO-8601-seconds variant without a colon in the offset.  The code in
must.go attempts only three; this definition follows the spec's list. -/
def timeLayoutsSpec : List (List Char → Option GoTime) :=
  [parseRFC1123Z, parseRFC3339, parseRFC3339Nano, parseUnixDate, parseISO8601NoColon]

/-- Modelled from the spec: `mustTime` as section 4.1 describes it, with
the five-layout list, first success winning, converted to UTC, and a
fatal malformed-metadata error naming the field when no layout
matches. -/
def mustTimeSpec (path raw : String) : Except String (Option GoTime) :=
  if raw = "" then .ok none
  else match firstParse timeLayoutsSpec raw.data with
    | some t => .ok (some (goTimeUTC t))
    | none => .error ("malformed ldflags value for " ++ path)

end Meta

example : Meta.epochDays 1970 1 1 = 0 := by decide
example : Meta.epochDays 2019 8 23 = 18131 := by decide
example : Meta.mustTime "p" "Fri, 23 Aug 2019 11:00:00 -0700" = .ok (some ⟨1566583200, 0, 0⟩) := rfl
example : Meta.mustTime "p" "2019-08-23T18:00:00Z" = .ok (some ⟨1566583200, 0, 0⟩) := rfl
example : Meta.mustTime "p" "2019-08-23T11:00:00-07:00" = .ok (some ⟨1566583200, 0, 0⟩) := rfl
example : Meta.mustTime "p" "2019-08-23T11:00:00-0700" = .ok (some ⟨1566583200, 0, 0⟩) := rfl
example : Meta.mustTime "p" "tomorrow" = .error "malformed ldflags value for p" := rfl
example : Meta.mustTime "p" "today" = .error "malformed ldflags value for p" := rfl
example : Meta.mustTime "p" "Fri Aug 23 11:00:00 UTC 2019" = .error "malformed ldflags value for p" := rfl
example : Meta.mustTimeSpec "p" "Fri Aug 23 11:00:00 UTC 2019" = .ok (some ⟨1566558000, 0, 0⟩) := rfl

example : Meta.mustURL "p" "http://example.com" = .ok (some ⟨"http", "", "example.com", "", "", ""⟩) := rfl
example : Meta.mustURL "p" "https://example.com" = .ok (some ⟨"https", "", "example.com", "", "", ""⟩) := rfl
example : Meta.mustURL "p" "http://example.com:8080/demo" = .ok (some ⟨"http", "", "example.com:8080", "/demo", "", ""⟩) := rfl
example : Meta.mustURL "p" "example.com" = .error "malformed ldflags value for p" := rfl
example : Meta.mustURL "p" "ftp://example.com" = .error "malformed ldflags value for p" := rfl
example : Meta.mustURL "p" "http://" = .error "malformed ldflags value for p" := rfl
example : Meta.mustURL "p" "http://localhost:http" = .error "malformed ldflags value for p" := rfl
example : Meta.mustURL "p" "http://localhost" = .ok (some ⟨"http", "", "localhost", "", "", ""⟩) := rfl
example : Meta.mustURL "p" "http://127.0.0.1" = .ok (some ⟨"http", "", "127.0.0.1", "", "", ""⟩) := rfl

example : Meta.mustAuthor "p" "Jane Doe <jdoe@example.com>" = ("Jane Doe", "jdoe@example.com") := by decide
example : Meta.mustAuthor "p" "jdoe@example.com" = ("", "jdoe@example.com") := by decide
example : Meta.mustAuthor "p" "<jdoe@example.com>" = ("", "jdoe@example.com") := by decide
example : Meta.mustAuthor "p" "Jane Doe <example@>" = ("Jane Doe <example@>", "") := by decide
example : Meta.mustAuthor "p" "John Doe" = ("John Doe", "") := by decide

example : Meta.mustSemver "p" "v1.2.3-rc.456+build.789" = ("1", "2", "3", "rc.456", "build.789") := by decide
example : Meta.mustSemver "p" "v1.2.3" = ("1", "2", "3", "", "") := by decide
example : Meta.mustSemver "p" "latest" = ("", "", "", "", "") := by decide
example : Meta.mustSemver "p" "vv1.2.3" = ("", "", "", "", "") := by decide
example : Meta.mustSHA "p" "0000000000000000000000000000000000000000" = .ok "0000000000000000000000000000000000000000" := rfl
example : Meta.mustSHA "p" "0000000" = .error "malformed ldflags value for p" := rfl
example : Meta.ShortSHA "0123456789012345678901234567890123456789" = some "0123456" := by decide
example : Meta.mustBool "p" "TRUE" = true := by decide
example : Meta.mustBool "p" "yes" = false := by decide

namespace Meta

/-- C1: for every validator, the empty-string raw input yields the
absent/default result and never errors or panics: `mustAuthor` returns
empty name and email, `mustBool` returns `false`, `mustSemver` returns
five empty components, `mustSHA` returns the empty string, and
`mustTime` and `mustURL` return the absent value. -/
theorem empty_raw_yields_absent (path : String) :
    mustAuthor path "" = ("", "") ∧
    mustBool path "" = false ∧
    mustSemver path "" = ("", "", "", "", "") ∧
    mustSHA path "" = .ok "" ∧
    mustTime path "" = .ok none ∧
    mustURL path "" = .ok none :=
  ⟨rfl, rfl, rfl, rfl, rfl, rfl⟩

/-- C5: the four sample timestamps all map to the identical UTC instant
2019-08-23T18:00:00Z (offset normalised to UTC before returning), and
`tomorrow` raises the fatal malformed-metadata error. -/
theorem mustTime_examples_utc :
    mustTime "jdk.sh/meta.date" "Fri, 23 Aug 2019 11:00:00 -0700" =
      .ok (some (mkGoTime 2019 8 23 18 0 0 0 0)) ∧
    mustTime "jdk.sh/meta.date" "2019-08-23T18:00:00Z" =
      .ok (some (mkGoTime 2019 8 23 18 0 0 0 0)) ∧
    mustTime "jdk.sh/meta.date" "2019-08-23T11:00:00-07:00" =
      .ok (some (mkGoTime 2019 8 23 18 0 0 0 0)) ∧
    mustTime "jdk.sh/meta.date" "2019-08-23T11:00:00-0700" =
      .ok (some (mkGoTime 2019 8 23 18 0 0 0 0)) ∧
    mustTime "jdk.sh/meta.date" "tomorrow" =
      .error "malformed ldflags value for jdk.sh/meta.date" :=
  ⟨rfl, rfl, rfl, rfl, rfl⟩

/-- C6: `mustSemver` decomposes the sample versions into their five
components, yields all-empty components on a non-semver string such as
`latest`, and — being a total function into quintuples of strings —
never signals an error on any input: whenever the regex fails to match,
the result is the all-empty quintuple. -/
theorem mustSemver_examples :
    mustSemver "jdk.sh/meta.version" "v1.2.3-rc.456+build.789" =
      ("1", "2", "3", "rc.456", "build.789") ∧
    mustSemver "jdk.sh/meta.version" "v1.2.3" = ("1", "2", "3", "", "") ∧
    mustSemver "jdk.sh/meta.version" "latest" = ("", "", "", "", "") ∧
    ∀ path raw, semverMatch (trimV raw) = none →
      mustSemver path raw = ("", "", "", "", "") := by
  refine ⟨rfl, rfl, rfl, ?_⟩
  intro path raw h
  simp [mustSemver, h]

/-- Concrete instantiation of the conditional part of `mustSemver_examples`. -/
theorem mustSemver_examples_witness :
    mustSemver "jdk.sh/meta.version" "development" = ("", "", "", "", "") :=
  mustSemver_examples.2.2.2 "jdk.sh/meta.version" "development" rfl

/-- C7: `mustAuthor` splits a full RFC-5322 mailbox into name and email,
maps a bare address to an empty name, and on any input the address
parser rejects returns the whole raw input as the name with an empty
email — so it never signals an error. -/
theorem mustAuthor_examples :
    mustAuthor "jdk.sh/meta.author" "Jane Doe <jdoe@example.com>" =
      ("Jane Doe", "jdoe@example.com") ∧
    mustAuthor "jdk.sh/meta.author" "jdoe@example.com" = ("", "jdoe@example.com") ∧
    mailParseAddress "Jane Doe <example@>" = none ∧
    ∀ path raw, mailParseAddress raw = none → mustAuthor path raw = (raw, "") := by
  refine ⟨rfl, rfl, rfl, ?_⟩
  intro path raw h
  by_cases hr : raw = ""
  · subst hr; rfl
  · simp [mustAuthor, hr, h]

/-- Concrete instantiation of the conditional part of `mustAuthor_examples`. -/
theorem mustAuthor_examples_witness :
    mustAuthor "jdk.sh/meta.author" "Jane Doe <example@>" = ("Jane Doe <example@>", "") :=
  mustAuthor_examples.2.2.2 "jdk.sh/meta.author" "Jane Doe <example@>" rfl

/-- C8: `mustBool` returns `false` for the empty string and for any
string the standard boolean-literal parser rejects; being a total
function into `Bool`, it never signals an error or panics. -/
theorem mustBool_default_false (path raw : String)
    (h : raw = "" ∨ goParseBool raw = none) : mustBool path raw = false := by
  rcases h with h | h
  · subst h; rfl
  · by_cases hr : raw = ""
    · subst hr; rfl
    · simp [mustBool, hr, h]

/-- Concrete instantiation of `mustBool_default_false`. -/
theorem mustBool_default_false_witness :
    mustBool "jdk.sh/meta.dev" "maybe" = false :=
  mustBool_default_false "jdk.sh/meta.dev" "maybe" (Or.inr rfl)

/-- C10: `mustSemver` strips at most one leading `v`: prefixing a single
`v` to a string that does not itself start with `v` does not change the
result, and a doubly-prefixed tag such as `vv1.2.3` fails the grammar
and yields all-empty components. -/
theorem mustSemver_strips_one_v :
    (∀ path s, s.data.head? ≠ some 'v' →
      mustSemver path ("v" ++ s) = mustSemver path s) ∧
    mustSemver "jdk.sh/meta.version" "vv1.2.3" = ("", "", "", "", "") := by
  constructor
  · intro path s hs
    have h1 : trimV ("v" ++ s) = s := by
      show trimV ⟨("v" ++ s).data⟩ = s
      rw [String.data_append]
      show trimV ⟨'v' :: s.data⟩ = s
      simp only [trimV]
    have h2 : trimV s = s := by
      unfold trimV
      cases hd : s.data with
      | nil => rfl
      | cons c rest =>
        have hc : c ≠ 'v' := by
          intro hcv
          exact hs (by rw [hd, hcv]; rfl)
        simp [hc]
    unfold mustSemver
    rw [h1, h2]
  · rfl

/-- Concrete instantiation of the universal part of `mustSemver_strips_one_v`. -/
theorem mustSemver_strips_one_v_witness :
    mustSemver "jdk.sh/meta.version" ("v" ++ "1.0.0") =
      mustSemver "jdk.sh/meta.version" "1.0.0" :=
  mustSemver_strips_one_v.1 "jdk.sh/meta.version" "1.0.0" (by decide)

end Meta

namespace Meta

/-- Every UTF-8 character occupies at most four bytes, so the byte length
of a string bounds four times its character count from below. -/
theorem goLen_le_four_mul (l : List Char) :
    (l.map Char.utf8Size).sum ≤ 4 * l.length := by
  induction l with
  | nil => simp
  | cons c cs ih =>
    simp only [List.map_cons, List.sum_cons, List.length_cons]
    have := c.utf8Size_le_four
    omega

/-- C2: for every non-empty input, `mustSHA` returns the input verbatim
exactly when it is 40 bytes of lowercase hex (so uppercase hex is
rejected, `A` through `F` lying outside both accepted ranges), and
panics with the malformed-metadata error naming the field otherwise;
`ShortSHA` takes the first 7 characters of any non-empty string of
sufficient length without re-validating it, and is empty on the absent
SHA. -/
theorem mustSHA_accepts_iff (path raw : String) (hne : raw ≠ "") :
    (mustSHA path raw = .ok raw ↔ goLen raw = 40 ∧ raw.data.all isLowerHex = true) ∧
    (¬(goLen raw = 40 ∧ raw.data.all isLowerHex = true) →
      mustSHA path raw = .error ("malformed ldflags value for " ++ path)) ∧
    (∀ s : String, s ≠ "" → 7 ≤ goLen s → ShortSHA s = some ⟨s.data.take 7⟩) ∧
    ShortSHA "" = some "" := by
  have herr : ¬(goLen raw = 40 ∧ raw.data.all isLowerHex = true) →
      mustSHA path raw = .error ("malformed ldflags value for " ++ path) := by
    intro hc
    simp only [mustSHA, if_neg hne]
    split_ifs with h40 hall
    · rfl
    · exact absurd ⟨not_not.mp h40, hall⟩ hc
    · rfl
  refine ⟨⟨?_, ?_⟩, herr, ?_, rfl⟩
  · intro h
    by_contra hc
    rw [herr hc] at h
    exact Except.noConfusion h
  · rintro ⟨h40, hall⟩
    simp [mustSHA, hne, h40, hall]
  · intro s hs h7
    simp [ShortSHA, hs, h7]

/-- Concrete instantiation of `mustSHA_accepts_iff` at the sample SHA of
the package documentation. -/
theorem mustSHA_accepts_iff_witness :
    mustSHA "jdk.sh/meta.sha" "bb2fecbb4a287ea4c1f9887ca86dd0eb7ff28ec6" =
      .ok "bb2fecbb4a287ea4c1f9887ca86dd0eb7ff28ec6" :=
  ((mustSHA_accepts_iff "jdk.sh/meta.sha" "bb2fecbb4a287ea4c1f9887ca86dd0eb7ff28ec6"
    (by decide)).1).mpr ⟨rfl, rfl⟩

/-- C9: any value `mustSHA` accepts makes `ShortSHA` safe: the slice is
always in bounds (no panic), and the result is either the empty string or
a 7-character string that is a prefix of the accepted SHA. -/
theorem shortSHA_safe (path raw s : String) (h : mustSHA path raw = .ok s) :
    (ShortSHA s).isSome = true ∧
    (s = "" → ShortSHA s = some "") ∧
    (s ≠ "" → goLen s = 40 ∧ ShortSHA s = some ⟨s.data.take 7⟩ ∧
      (String.mk (s.data.take 7)).length = 7 ∧ s.data.take 7 <+: s.data) := by
  have hsrc : s = "" ∨ (goLen s = 40 ∧ s.data.all isLowerHex = true) := by
    by_cases hne : raw = ""
    · subst hne
      simp only [mustSHA, if_pos rfl] at h
      cases h
      exact Or.inl rfl
    · by_cases h40 : goLen raw = 40
      · by_cases hall : raw.data.all isLowerHex = true
        · have heq : mustSHA path raw = .ok raw := by
            simp [mustSHA, hne, h40, hall]
          rw [heq] at h
          injection h with h2
          subst h2
          exact Or.inr ⟨h40, hall⟩
        · have heq : mustSHA path raw = .error ("malformed ldflags value for " ++ path) := by
            simp [mustSHA, hne, h40, hall]
          rw [heq] at h
          exact Except.noConfusion h
      · have heq : mustSHA path raw = .error ("malformed ldflags value for " ++ path) := by
          simp [mustSHA, hne, h40]
        rw [heq] at h
        exact Except.noConfusion h
  rcases hsrc with hse | ⟨h40, _⟩
  · subst hse
    exact ⟨rfl, fun _ => rfl, fun hne => absurd rfl hne⟩
  · have hsne : s ≠ "" := by
      intro hse
      rw [hse] at h40
      exact absurd h40 (by decide)
    have hlen : 10 ≤ s.data.length := by
      have := goLen_le_four_mul s.data
      unfold goLen at h40
      omega
    have hshort : ShortSHA s = some ⟨s.data.take 7⟩ := by
      simp [ShortSHA, hsne, h40]
    refine ⟨by rw [hshort]; rfl, fun hse => absurd hse hsne, fun _ => ⟨h40, hshort, ?_, ?_⟩⟩
    · show (s.data.take 7).length = 7
      rw [List.length_take]
      omega
    · exact ⟨s.data.drop 7, List.take_append_drop 7 s.data⟩

/-- Concrete instantiation of `shortSHA_safe` at the sample SHA. -/
theorem shortSHA_safe_witness :
    ShortSHA "bb2fecbb4a287ea4c1f9887ca86dd0eb7ff28ec6" = some "bb2fecb" := by
  have h := (shortSHA_safe "jdk.sh/meta.sha" "bb2fecbb4a287ea4c1f9887ca86dd0eb7ff28ec6"
    "bb2fecbb4a287ea4c1f9887ca86dd0eb7ff28ec6" rfl).2.2 (by decide)
  rw [h.2.1]
  rfl

end Meta

namespace Meta

/-- C3: for every non-empty input, `mustURL` panics (with the
malformed-metadata error naming the field) exactly when generic URL
parsing fails, or the parsed scheme is not `http`/`https`, or the parsed
host is empty; the sample URLs behave as the spec lists, and
`http://example.com:8080/demo` round-trips scheme, host (with port) and
path exactly. -/
theorem mustURL_panics_iff :
    (∀ path raw, raw ≠ "" →
      ((mustURL path raw).isOk = false ↔
        (goURLParse raw = none ∨ ∃ u, goURLParse raw = some u ∧
          ((u.scheme ≠ "http" ∧ u.scheme ≠ "https") ∨ u.host = "")))) ∧
    mustURL "jdk.sh/meta.url" "http://example.com" =
      .ok (some ⟨"http", "", "example.com", "", "", ""⟩) ∧
    mustURL "jdk.sh/meta.url" "https://example.com" =
      .ok (some ⟨"https", "", "example.com", "", "", ""⟩) ∧
    mustURL "jdk.sh/meta.url" "example.com" =
      .error "malformed ldflags value for jdk.sh/meta.url" ∧
    mustURL "jdk.sh/meta.url" "ftp://example.com" =
      .error "malformed ldflags value for jdk.sh/meta.url" ∧
    mustURL "jdk.sh/meta.url" "http://example.com:8080/demo" =
      .ok (some ⟨"http", "", "example.com:8080", "/demo", "", ""⟩) := by
  refine ⟨?_, rfl, rfl, rfl, rfl, rfl⟩
  intro path raw hne
  simp only [mustURL, if_neg hne]
  cases hp : goURLParse raw with
  | none => simp [Except.isOk, Except.toBool]
  | some u =>
    dsimp only
    split_ifs with h1 h2
    · simp only [Except.isOk, Except.toBool, true_iff]
      exact Or.inr ⟨u, rfl, Or.inl h1⟩
    · simp only [Except.isOk, Except.toBool, true_iff]
      exact Or.inr ⟨u, rfl, Or.inr h2⟩
    · constructor
      · intro hok
        simp [Except.isOk, Except.toBool] at hok
      · intro hr
        exfalso
        rcases hr with hn | ⟨u2, hu2, hcond⟩
        · exact hn
        · injection hu2 with hu2
          subst hu2
          rcases hcond with hc | hc
          · exact h1 hc
          · exact h2 hc

/-- Concrete instantiation of the conditional part of `mustURL_panics_iff`. -/
theorem mustURL_panics_iff_witness :
    (mustURL "jdk.sh/meta.url" "ftp://example.com").isOk = false :=
  (mustURL_panics_iff.1 "jdk.sh/meta.url" "ftp://example.com" (by decide)).mpr
    (Or.inr ⟨⟨"ftp", "", "example.com", "", "", ""⟩, rfl, Or.inl (by decide)⟩)

/-- C4 (amended): for every non-empty input, `mustTime` tries exactly
three layouts in order — RFC-1123-with-numeric-zone, RFC-3339, and the
ISO-8601-seconds variant lacking a colon in the zone offset — the first
successful parse winning and being converted to UTC; if none matches, it
signals the fatal malformed-metadata error naming the field. -/
theorem mustTime_three_layouts (path raw : String) (hne : raw ≠ "") :
    (∀ t, parseRFC1123Z raw.data = some t →
      mustTime path raw = .ok (some (goTimeUTC t))) ∧
    (parseRFC1123Z raw.data = none →
      (∀ t, parseRFC3339 raw.data = some t →
        mustTime path raw = .ok (some (goTimeUTC t))) ∧
      (parseRFC3339 raw.data = none →
        (∀ t, parseISO8601NoColon raw.data = some t →
          mustTime path raw = .ok (some (goTimeUTC t))) ∧
        (parseISO8601NoColon raw.data = none →
          mustTime path raw = .error ("malformed ldflags value for " ++ path)))) := by
  refine ⟨?_, fun h1 => ⟨?_, fun h2 => ⟨?_, fun h3 => ?_⟩⟩⟩
  · intro t ht
    simp [mustTime, hne, timeLayouts, firstParse, ht]
  · intro t ht
    simp [mustTime, hne, timeLayouts, firstParse, h1, ht]
  · intro t ht
    simp [mustTime, hne, timeLayouts, firstParse, h1, h2, ht]
  · simp [mustTime, hne, timeLayouts, firstParse, h1, h2, h3]

/-- Concrete instantiation of `mustTime_three_layouts`: the second
layout (RFC 3339) wins on a sample the first rejects. -/
theorem mustTime_three_layouts_witness :
    mustTime "jdk.sh/meta.date" "2019-08-23T18:00:00Z" =
      .ok (some (goTimeUTC (mkGoTime 2019 8 23 18 0 0 0 0))) :=
  ((mustTime_three_layouts "jdk.sh/meta.date" "2019-08-23T18:00:00Z"
    (by decide)).2 rfl).1 (mkGoTime 2019 8 23 18 0 0 0 0) rfl

/-- C4 (counterexample): the claimed five-layout list would accept the
Unix-style date `Fri Aug 23 11:00:00 UTC 2019` (its fourth layout), but
`mustTime` as implemented signals the fatal error on it, because the
Unix-style layout (and the nanoseconds layout) are not attempted. -/
theorem mustTime_unixdate_diverges :
    mustTime "jdk.sh/meta.date" "Fri Aug 23 11:00:00 UTC 2019" =
      .error "malformed ldflags value for jdk.sh/meta.date" ∧
    mustTimeSpec "jdk.sh/meta.date" "Fri Aug 23 11:00:00 UTC 2019" =
      .ok (some (mkGoTime 2019 8 23 11 0 0 0 0)) :=
  ⟨rfl, rfl⟩

end Meta
